import Mathlib

/-!
Verification of the WebRTC signaling server's room/connection registry and
message router (`src/handlers/websocket_handler.py`, `src/main.py`).

Connections (transport handles) are modelled as natural numbers.  The
registry state (`WebSocketHandler.rooms` / `WebSocketHandler.connection_metadata`)
is a pair of partial maps.  Send failures are modelled by an oracle
`fails : Nat → Bool` marking the connections whose transport raises on
`send_text`.  The mutual recursion `broadcast_to_room` ↔ `disconnect`
(a failed send inside a broadcast triggers `disconnect`, whose `user_left`
broadcast may trigger further disconnects) is embedded as a single
fuel-indexed structurally recursive function `bdFuel`; the registry
mutation performed by `disconnect` (`dcCore`) happens at every fuel, so
only the depth of nested notification cascades is bounded by fuel.
-/

namespace WebRTC

/-- Metadata stored per connection by `WebSocketHandler.connect`
(`connection_metadata[websocket]`). -/
structure Meta where
  room_id : String
  username : Option String
  client_id : String
deriving DecidableEq

/-- The registry state of `WebSocketHandler`: `rooms` maps a room id to its
member set (modelled as a duplicate-free list), `metadata` maps a connection
to its metadata. -/
structure Handler where
  rooms : String → Option (List Nat)
  metadata : Nat → Option Meta

/-- Server-to-client messages produced by the handler (the payloads of
`send_text`, with Python `None` rendered as `Option.none`). -/
inductive ServerMsg where
  | usersInRoom (users : List (String × Option String))
  | userJoined (room_id : String) (username : Option String) (client_id : String)
      (connected_users : Nat)
  | userLeft (room_id : String) (client_id : Option String) (username : Option String)
      (connected_users : Nat)
  | offerMsg (payload : Option String) (fromId : Option String) (username : Option String)
  | answerMsg (payload : Option String) (fromId : Option String) (username : Option String)
  | iceMsg (payload : Option String) (fromId : Option String) (username : Option String)
  | pong
  | errMsg (message : String)
deriving DecidableEq

/-- An inbound client message: a JSON object read through `dict.get`, so every
field is optional.  Payloads are opaque strings. -/
structure InMsg where
  type : Option String := none
  toId : Option String := none
  offer : Option String := none
  answer : Option String := none
  candidate : Option String := none
deriving DecidableEq

/-- Python truthiness of an optional string (`if target_client_id:`,
`if not client_id:`): absent and empty strings are falsy. -/
def isTruthy : Option String → Bool
  | none => false
  | some s => !s.isEmpty

/-- Point update of the room map (`self.rooms[room_id] = ...` / `del`). -/
def setRoom (h : Handler) (r : String) (v : Option (List Nat)) : Handler :=
  { h with rooms := fun r2 => if r2 = r then v else h.rooms r2 }

/-- Point update of the metadata map. -/
def setMeta (h : Handler) (ws : Nat) (m : Meta) : Handler :=
  { h with metadata := fun w => if w = ws then some m else h.metadata w }

/-- Deletion from the metadata map (`del self.connection_metadata[websocket]`,
guarded by membership, hence a plain point erase). -/
def delMeta (h : Handler) (ws : Nat) : Handler :=
  { h with metadata := fun w => if w = ws then none else h.metadata w }

/-- The member list of a room, empty if the room is absent. -/
def membersOf (h : Handler) (r : String) : List Nat :=
  (h.rooms r).getD []

/-- Member count of a room (0 if absent). -/
def memberCountOf (h : Handler) (r : String) : Nat :=
  (membersOf h r).length

/-- The registry mutation of `WebSocketHandler.disconnect` (lines 87-97):
discard the connection from the room, delete the room if it became empty,
delete the metadata entry. -/
def dcCore (h : Handler) (ws : Nat) (room_id : String) : Handler :=
  let h1 :=
    match h.rooms room_id with
    | none => h
    | some members =>
      let members' := members.erase ws
      if members' = [] then setRoom h room_id none
      else setRoom h room_id (some members')
  delMeta h1 ws

/-- Work items of the broadcast/disconnect recursion: a broadcast call, a
single disconnect call, or the sequence of disconnect calls performed for the
`disconnected_clients` of one broadcast. -/
inductive Call where
  | bc (room_id : String) (msg : ServerMsg) (excl : Option Nat)
  | dc (ws : Nat) (room_id : String)
  | dcs (wss : List Nat) (room_id : String)

/-- Fuel-indexed embedding of `broadcast_to_room` (lines 244-262) and
`disconnect` (lines 78-112).  A broadcast sends the message to every room
member except the excluded one; sends to connections marked by `fails` raise
and the failing recipients are disconnected afterwards, which broadcasts
`user_left` to the survivors, possibly cascading.  The returned list is the
log of successfully delivered messages.  Fuel bounds only the cascade depth:
the registry mutation of a disconnect (`dcCore`) happens at every fuel. -/
def bdFuel (fails : Nat → Bool) : Nat → Call → Handler → Handler × List (Nat × ServerMsg)
  | 0, .bc _ _ _, h => (h, [])
  | 0, .dc ws room_id, h => (dcCore h ws room_id, [])
  | 0, .dcs _ _, h => (h, [])
  | fuel + 1, .bc room_id msg excl, h =>
    match h.rooms room_id with
    | none => (h, [])
    | some members =>
      let recipients := members.filter (fun ws => excl != some ws)
      let delivered := recipients.filter (fun ws => !fails ws)
      let broken := recipients.filter (fun ws => fails ws)
      let r := bdFuel fails fuel (.dcs broken room_id) h
      (r.1, delivered.map (fun ws => (ws, msg)) ++ r.2)
  | fuel + 1, .dc ws room_id, h =>
    let cid := (h.metadata ws).map Meta.client_id
    let uname := (h.metadata ws).bind Meta.username
    let h2 := dcCore h ws room_id
    (match h2.rooms room_id with
     | some members2 =>
       bdFuel fails fuel (.bc room_id (.userLeft room_id cid uname members2.length) none) h2
     | none => (h2, []))
  | _ + 1, .dcs [] _, h => (h, [])
  | fuel + 1, .dcs (ws :: rest) room_id, h =>
    let r1 := bdFuel fails fuel (.dc ws room_id) h
    let r2 := bdFuel fails fuel (.dcs rest room_id) r1.1
    (r2.1, r1.2 ++ r2.2)

/-- `WebSocketHandler.broadcast_to_room(room_id, message, exclude_websocket)`. -/
def broadcast_to_room (fails : Nat → Bool) (fuel : Nat) (h : Handler) (room_id : String)
    (message : ServerMsg) (exclude_websocket : Option Nat) : Handler × List (Nat × ServerMsg) :=
  bdFuel fails fuel (.bc room_id message exclude_websocket) h

/-- `WebSocketHandler.disconnect(websocket, room_id)`. -/
def disconnect (fails : Nat → Bool) (fuel : Nat) (h : Handler) (websocket : Nat)
    (room_id : String) : Handler × List (Nat × ServerMsg) :=
  bdFuel fails fuel (.dc websocket room_id) h

/-- Result of `WebSocketHandler.connect`: the new registry state, the log of
delivered messages, and whether the call returned normally (`ok = false`
models the `users_in_room` send to the joining connection raising, which
aborts `connect` after the registry was already mutated). -/
structure CRes where
  state : Handler
  log : List (Nat × ServerMsg)
  ok : Bool

/-- `WebSocketHandler.connect(websocket, room_id, username, client_id)`
(lines 30-76).  `genId` stands for the `uuid.uuid4()` value used when the
client supplied no truthy `client_id`. -/
def connect (fails : Nat → Bool) (fuel : Nat) (h : Handler) (websocket : Nat)
    (room_id : String) (username : Option String) (client_id : Option String)
    (genId : String) : CRes :=
  let cid := if isTruthy client_id then client_id.getD "" else genId
  let members := (h.rooms room_id).getD []
  let members' := if websocket ∈ members then members else members ++ [websocket]
  let h1 := setRoom h room_id (some members')
  let h2 := setMeta h1 websocket ⟨room_id, username, cid⟩
  let existing := (members'.filter (fun w => w != websocket)).filterMap
    (fun w => (h2.metadata w).map (fun m => (m.client_id, m.username)))
  if existing = [] then
    let r := bdFuel fails fuel
      (.bc room_id (.userJoined room_id username cid members'.length) (some websocket)) h2
    ⟨r.1, r.2, true⟩
  else if fails websocket then ⟨h2, [], false⟩
  else
    let r := bdFuel fails fuel
      (.bc room_id (.userJoined room_id username cid members'.length) (some websocket)) h2
    ⟨r.1, (websocket, .usersInRoom existing) :: r.2, true⟩

/-- `WebSocketHandler.find_websocket_by_client_id(room_id, client_id)`
(lines 232-242). -/
def find_websocket_by_client_id (h : Handler) (room_id : String)
    (client_id : String) : Option Nat :=
  match h.rooms room_id with
  | none => none
  | some members =>
    members.find? (fun ws =>
      match h.metadata ws with
      | some m => m.client_id == client_id
      | none => false)

/-- Result of a message handler: new state, delivered messages, and whether an
exception escaped the handler. -/
structure HRes where
  state : Handler
  log : List (Nat × ServerMsg)
  raised : Bool

/-- `WebSocketHandler.handle_offer` (lines 141-169). -/
def handle_offer (fails : Nat → Bool) (fuel : Nat) (h : Handler) (room_id : String)
    (sender : Nat) (message : InMsg) : HRes :=
  let meta := h.metadata sender
  let out : ServerMsg := .offerMsg message.offer (meta.map Meta.client_id)
    (meta.bind Meta.username)
  if isTruthy message.toId then
    match find_websocket_by_client_id h room_id (message.toId.getD "") with
    | some target =>
      if fails target then ⟨h, [], true⟩ else ⟨h, [(target, out)], false⟩
    | none =>
      if fails sender then ⟨h, [], true⟩
      else ⟨h, [(sender,
        .errMsg ("Target client " ++ message.toId.getD "" ++ " not found"))], false⟩
  else
    let r := bdFuel fails fuel (.bc room_id out (some sender)) h
    ⟨r.1, r.2, false⟩

/-- `WebSocketHandler.handle_answer` (lines 171-199). -/
def handle_answer (fails : Nat → Bool) (fuel : Nat) (h : Handler) (room_id : String)
    (sender : Nat) (message : InMsg) : HRes :=
  let meta := h.metadata sender
  let out : ServerMsg := .answerMsg message.answer (meta.map Meta.client_id)
    (meta.bind Meta.username)
  if isTruthy message.toId then
    match find_websocket_by_client_id h room_id (message.toId.getD "") with
    | some target =>
      if fails target then ⟨h, [], true⟩ else ⟨h, [(target, out)], false⟩
    | none =>
      if fails sender then ⟨h, [], true⟩
      else ⟨h, [(sender,
        .errMsg ("Target client " ++ message.toId.getD "" ++ " not found"))], false⟩
  else
    let r := bdFuel fails fuel (.bc room_id out (some sender)) h
    ⟨r.1, r.2, false⟩

/-- `WebSocketHandler.handle_ice_candidate` (lines 201-224).  Note: in the
unresolved-target branch the source only logs a warning and sends nothing. -/
def handle_ice_candidate (fails : Nat → Bool) (fuel : Nat) (h : Handler) (room_id : String)
    (sender : Nat) (message : InMsg) : HRes :=
  let meta := h.metadata sender
  let out : ServerMsg := .iceMsg message.candidate (meta.map Meta.client_id)
    (meta.bind Meta.username)
  if isTruthy message.toId then
    match find_websocket_by_client_id h room_id (message.toId.getD "") with
    | some target =>
      if fails target then ⟨h, [], true⟩ else ⟨h, [(target, out)], false⟩
    | none => ⟨h, [], false⟩
  else
    let r := bdFuel fails fuel (.bc room_id out (some sender)) h
    ⟨r.1, r.2, false⟩

/-- `WebSocketHandler.handle_ping` (lines 226-230): log of sends and whether
the send raised. -/
def handle_ping (fails : Nat → Bool) (websocket : Nat) : List (Nat × ServerMsg) × Bool :=
  if fails websocket then ([], true) else ([(websocket, .pong)], false)

/-- String form of an optional message type, as Python interpolates it
(`None` for an absent key). -/
def typeName : Option String → String
  | none => "None"
  | some s => s

/-- `WebSocketHandler.handle_message` (lines 114-139): dispatch on the `type`
field; any exception from a branch is caught and answered with a generic
`error` to the sender (which may itself raise). -/
def handle_message (fails : Nat → Bool) (fuel : Nat) (h : Handler) (room_id : String)
    (sender : Nat) (message : InMsg) : HRes :=
  let inner : HRes :=
    match message.type with
    | some "offer" => handle_offer fails fuel h room_id sender message
    | some "answer" => handle_answer fails fuel h room_id sender message
    | some "ice_candidate" => handle_ice_candidate fails fuel h room_id sender message
    | some "ping" =>
      let p := handle_ping fails sender
      ⟨h, p.1, p.2⟩
    | t =>
      if fails sender then ⟨h, [], true⟩
      else ⟨h, [(sender, .errMsg ("Unknown message type: " ++ typeName t))], false⟩
  if inner.raised then
    if fails sender then inner
    else ⟨inner.state, inner.log ++ [(sender, .errMsg "Internal server error")], false⟩
  else inner

/-- Close event: WebSocket close code and reason, as in
`websocket.close(code=..., reason=...)`. -/
def rateLimitClose : Nat × String := (1008, "Rate limit exceeded")

/-- The close event of the invalid-token authentication failure in
`websocket_endpoint` (`main.py` line 215). -/
def invalidTokenClose : Nat × String := (1008, "Invalid token")

/-- The main message loop of `websocket_endpoint` (`main.py` lines 261-272):
before each receive the external rate limiter is queried (`allow i` for the
i-th iteration); a deny closes with `rateLimitClose` and breaks.  An exhausted
message list models the client closing the transport (receive raises
`WebSocketDisconnect`); an exception escaping `handle_message` exits the loop.
Returns the state, the log, and the close events issued by the loop. -/
def endpointLoop (fails : Nat → Bool) (fuel : Nat) (allow : Nat → Bool) (room_id : String)
    (ws : Nat) : Nat → List InMsg → Handler →
    Handler × List (Nat × ServerMsg) × List (Nat × String)
  | i, msgs, h =>
    if !allow i then (h, [], [rateLimitClose])
    else
      match msgs with
      | [] => (h, [], [])
      | m :: rest =>
        let r := handle_message fails fuel h room_id ws m
        if r.raised then (r.state, r.log, [])
        else
          let r2 := endpointLoop fails fuel allow room_id ws (i + 1) rest r.state
          (r2.1, r.log ++ r2.2.1, r2.2.2)

/-- Result of one run of `websocket_endpoint` after successful
authentication: final state, log, close events, and how many times the
`finally` block invoked the disconnect cleanup. -/
structure ERes where
  state : Handler
  log : List (Nat × ServerMsg)
  closes : List (Nat × String)
  cleanups : Nat

/-- `websocket_endpoint` (`main.py` lines 192-305), starting after a
successful authentication: `connect` to the room; if `connect` returns
normally the `connected` flag is set, the message loop runs, and the
`finally` block calls `disconnect` once; if `connect` raises (its
`users_in_room` send failed) the flag is still false and the `finally`
block skips the disconnect. -/
def websocket_endpoint (fails : Nat → Bool) (fuel : Nat) (allow : Nat → Bool) (h : Handler)
    (ws : Nat) (room_id : String) (username : Option String) (client_id : Option String)
    (genId : String) (msgs : List InMsg) : ERes :=
  let c := connect fails fuel h ws room_id username client_id genId
  if c.ok then
    let l := endpointLoop fails fuel allow room_id ws 0 msgs c.state
    let d := bdFuel fails fuel (.dc ws room_id) l.1
    ⟨d.1, c.log ++ l.2.1 ++ d.2, l.2.2, 1⟩
  else
    ⟨c.state, c.log, [], 0⟩

/-- The all-sends-succeed failure oracle. -/
def noFail : Nat → Bool := fun _ => false

/-- Registry operations for trace reasoning (claim C1): a join carries the
arguments of `connect` (with `genId` the generated id), a leave the arguments
of `disconnect`. -/
inductive Op where
  | join (ws : Nat) (room_id : String) (username : Option String)
      (client_id : Option String) (genId : String)
  | leave (ws : Nat) (room_id : String)

/-- One registry operation executed with reliable transports (send failures
are a separate concern, claim C2). -/
def stepOp (h : Handler) : Op → Handler
  | .join ws room_id u cid gen => (connect noFail 1 h ws room_id u cid gen).state
  | .leave ws room_id => (disconnect noFail 1 h ws room_id).1

/-- Execution of a trace of registry operations. -/
def runOps (h : Handler) : List Op → Handler
  | [] => h
  | op :: ops => runOps (stepOp h op) ops

/-- Well-formedness of a trace: each join is of a connection not currently a
member of the target room (the spec makes a double join without an
intervening leave a caller error). -/
def wfOps (h : Handler) : List Op → Bool
  | [] => true
  | op :: ops =>
    (match op with
     | .join ws room_id _ _ _ => !(decide (ws ∈ membersOf h room_id))
     | .leave _ _ => true) && wfOps (stepOp h op) ops

/-- Number of joins into room `r` in a trace. -/
def joinTally (r : String) : List Op → Nat
  | [] => 0
  | .join _ room_id _ _ _ :: ops => (if room_id = r then 1 else 0) + joinTally r ops
  | .leave _ _ :: ops => joinTally r ops

/-- Number of completed leaves of room `r` in a trace: leaves whose connection
was a member of the named room when the leave executed. -/
def leaveTally (h : Handler) (r : String) : List Op → Nat
  | [] => 0
  | op :: ops =>
    (match op with
     | .leave ws room_id =>
       if room_id = r ∧ ws ∈ membersOf h room_id then 1 else 0
     | .join _ _ _ _ _ => 0) + leaveTally (stepOp h op) r ops

/-- Structural invariant of the room map: a present room is nonempty and
duplicate-free. -/
def GoodRooms (h : Handler) : Prop :=
  ∀ r l, h.rooms r = some l → l ≠ [] ∧ l.Nodup

/-- The empty registry. -/
def emptyHandler : Handler := ⟨fun _ => none, fun _ => none⟩

/-- The state only shrinks: every room's member list is a sublist of what it
was, and metadata entries are unchanged or deleted.  This is the net effect
of any broadcast/disconnect activity. -/
def Shrinks (h' h : Handler) : Prop :=
  (∀ r, List.Sublist (membersOf h' r) (membersOf h r)) ∧
  (∀ w, h'.metadata w = h.metadata w ∨ h'.metadata w = none)

/-- Recognizer for `user_left` notifications. -/
def isUserLeftB : ServerMsg → Bool
  | .userLeft _ _ _ _ => true
  | _ => false

/-- Recognizer for `users_in_room` snapshots. -/
def isUsersInRoomB : ServerMsg → Bool
  | .usersInRoom _ => true
  | _ => false

/-- Assemble a room map from an association list (test fixtures). -/
def mkRooms (l : List (String × List Nat)) : String → Option (List Nat) :=
  fun r => (l.find? (fun p => p.1 == r)).map Prod.snd

/-- Assemble a metadata map from an association list (test fixtures). -/
def mkMeta (l : List (Nat × Meta)) : Nat → Option Meta :=
  fun w => (l.find? (fun p => p.1 == w)).map Prod.snd

/-- Fixture: room `"r"` with members 1, 2, 3 and full metadata. -/
def hThree : Handler :=
  ⟨mkRooms [("r", [1, 2, 3])],
   mkMeta [(1, ⟨"r", some "alice", "c1"⟩), (2, ⟨"r", some "bob", "c2"⟩),
     (3, ⟨"r", some "carol", "c3"⟩)]⟩

/-- Fixture: room `"r"` with the single member 2. -/
def hOne : Handler :=
  ⟨mkRooms [("r", [2])], mkMeta [(2, ⟨"r", some "bob", "c2"⟩)]⟩

/-- Fixture: rooms `"r"` (members 1, 2) and `"s"` (member 5), full metadata. -/
def hTwoRooms : Handler :=
  ⟨mkRooms [("r", [1, 2]), ("s", [5])],
   mkMeta [(1, ⟨"r", some "alice", "c1"⟩), (2, ⟨"r", some "bob", "c2"⟩),
     (5, ⟨"s", some "eve", "c5"⟩)]⟩

end WebRTC

namespace WebRTC

/-- Pointwise form of `dcCore`'s effect on a room's members: the connection is
erased from the named room, other rooms are untouched. -/
lemma dcCore_members (h : Handler) (ws : Nat) (room_id : String) (r : String) :
    membersOf (dcCore h ws room_id) r =
      if r = room_id then (membersOf h room_id).erase ws else membersOf h r := by
  unfold dcCore membersOf
  cases hr : h.rooms room_id with
  | none =>
    simp only [delMeta]
    by_cases hcase : r = room_id <;> simp [hcase, hr]
  | some members =>
    by_cases he : members.erase ws = []
    · simp only [he, if_pos rfl, delMeta, setRoom]
      by_cases hcase : r = room_id <;> simp [hcase, hr, he]
    · simp only [he, if_neg he, delMeta, setRoom]
      by_cases hcase : r = room_id <;> simp [hcase, hr]

/-- `dcCore` deletes exactly the connection's metadata entry. -/
lemma dcCore_metadata (h : Handler) (ws : Nat) (room_id : String) (w : Nat) :
    (dcCore h ws room_id).metadata w = if w = ws then none else h.metadata w := by
  unfold dcCore
  cases hr : h.rooms room_id with
  | none => rfl
  | some members =>
    simp only [hr]
    by_cases he : members.erase ws = []
    · rw [if_pos he]; rfl
    · rw [if_neg he]; rfl

lemma shrinks_refl (h : Handler) : Shrinks h h :=
  ⟨fun _ => List.Sublist.refl _, fun _ => Or.inl rfl⟩

lemma shrinks_trans {h2 h1 h : Handler} (a : Shrinks h2 h1) (b : Shrinks h1 h) :
    Shrinks h2 h := by
  refine ⟨fun r => (a.1 r).trans (b.1 r), fun w => ?_⟩
  rcases a.2 w with ha | ha
  · rw [ha]; exact b.2 w
  · exact Or.inr ha

lemma dcCore_shrinks (h : Handler) (ws : Nat) (room_id : String) :
    Shrinks (dcCore h ws room_id) h := by
  constructor
  · intro r
    rw [dcCore_members]
    split
    · next heq => rw [heq]; exact List.erase_sublist _ _
    · exact List.Sublist.refl _
  · intro w
    rw [dcCore_metadata]
    split
    · exact Or.inr rfl
    · exact Or.inl rfl

/-- Any broadcast/disconnect activity only shrinks the registry. -/
lemma bdFuel_shrinks (fails : Nat → Bool) :
    ∀ fuel : Nat,
      (∀ room msg excl h, Shrinks (bdFuel fails fuel (.bc room msg excl) h).1 h) ∧
      (∀ ws room h, Shrinks (bdFuel fails fuel (.dc ws room) h).1 h) ∧
      (∀ wss room h, Shrinks (bdFuel fails fuel (.dcs wss room) h).1 h) := by
  intro fuel
  induction fuel with
  | zero =>
    refine ⟨fun room msg excl h => ?_, fun ws room h => ?_, fun wss room h => ?_⟩
    · exact shrinks_refl h
    · exact dcCore_shrinks h ws room
    · exact shrinks_refl h
  | succ fuel ih =>
    obtain ⟨ihbc, ihdc, ihdcs⟩ := ih
    refine ⟨fun room msg excl h => ?_, fun ws room h => ?_, fun wss room h => ?_⟩
    · show Shrinks (bdFuel fails (fuel + 1) (.bc room msg excl) h).1 h
      simp only [bdFuel]
      cases hr : h.rooms room with
      | none => exact shrinks_refl h
      | some members => exact ihdcs _ _ _
    · show Shrinks (bdFuel fails (fuel + 1) (.dc ws room) h).1 h
      simp only [bdFuel]
      cases hr : (dcCore h ws room).rooms room with
      | none => exact dcCore_shrinks h ws room
      | some members2 =>
        exact shrinks_trans (ihbc _ _ _ _) (dcCore_shrinks h ws room)
    · show Shrinks (bdFuel fails (fuel + 1) (.dcs wss room) h).1 h
      cases wss with
      | nil => exact shrinks_refl h
      | cons w rest =>
        simp only [bdFuel]
        exact shrinks_trans (ihdcs _ _ _) (ihdc _ _ _)

end WebRTC

namespace WebRTC

lemma bdFuel_dcs_nil (fails : Nat → Bool) (fuel : Nat) (room : String) (h : Handler) :
    bdFuel fails fuel (.dcs [] room) h = (h, []) := by
  cases fuel <;> rfl

/-- With reliable transports, a broadcast delivers the message to every
member of the room except the excluded connection and changes no state. -/
lemma bdFuel_noFail_bc (fuel : Nat) (room : String) (msg : ServerMsg) (excl : Option Nat)
    (h : Handler) :
    bdFuel noFail (fuel + 1) (.bc room msg excl) h =
      (h, (((h.rooms room).getD []).filter (fun ws => excl != some ws)).map
        (fun ws => (ws, msg))) := by
  cases hr : h.rooms room with
  | none => simp [bdFuel, hr]
  | some members =>
    simp only [bdFuel, hr]
    rw [show (fun ws => noFail ws) = (fun _ : Nat => false) from rfl]
    rw [show (fun ws => !noFail ws) = (fun _ : Nat => true) from rfl]
    simp [bdFuel_dcs_nil]

lemma bdFuel_noFail_bc_state (fuel : Nat) (room : String) (msg : ServerMsg)
    (excl : Option Nat) (h : Handler) :
    (bdFuel noFail fuel (.bc room msg excl) h).1 = h := by
  cases fuel with
  | zero => rfl
  | succ fuel => rw [bdFuel_noFail_bc]

/-- With reliable transports, a disconnect performs exactly the `dcCore`
registry mutation, at any fuel. -/
lemma bdFuel_noFail_dc_state (fuel : Nat) (ws : Nat) (room : String) (h : Handler) :
    (bdFuel noFail fuel (.dc ws room) h).1 = dcCore h ws room := by
  cases fuel with
  | zero => rfl
  | succ fuel =>
    simp only [bdFuel]
    cases hr : (dcCore h ws room).rooms room with
    | none => rfl
    | some members2 =>
      simp only
      rw [bdFuel_noFail_bc_state]

/-- Every entry of a broadcast's log is either the broadcast message sent to a
non-excluded connection, or a `user_left` notification from a cascaded
disconnect; disconnect logs consist of `user_left` notifications only. -/
lemma bdFuel_log_shape (fails : Nat → Bool) :
    ∀ fuel : Nat,
      (∀ room msg excl h e, e ∈ (bdFuel fails fuel (.bc room msg excl) h).2 →
        (e.2 = msg ∧ excl ≠ some e.1) ∨ isUserLeftB e.2 = true) ∧
      (∀ ws room h e, e ∈ (bdFuel fails fuel (.dc ws room) h).2 →
        isUserLeftB e.2 = true) ∧
      (∀ wss room h e, e ∈ (bdFuel fails fuel (.dcs wss room) h).2 →
        isUserLeftB e.2 = true) := by
  intro fuel
  induction fuel with
  | zero =>
    refine ⟨fun room msg excl h e he => ?_, fun ws room h e he => ?_,
      fun wss room h e he => ?_⟩ <;> simp [bdFuel] at he
  | succ fuel ih =>
    obtain ⟨ihbc, ihdc, ihdcs⟩ := ih
    refine ⟨fun room msg excl h e he => ?_, fun ws room h e he => ?_,
      fun wss room h e he => ?_⟩
    · rw [show bdFuel fails (fuel + 1) (.bc room msg excl) h =
        (match h.rooms room with
         | none => (h, [])
         | some members =>
           let recipients := members.filter (fun ws => excl != some ws)
           let delivered := recipients.filter (fun ws => !fails ws)
           let broken := recipients.filter (fun ws => fails ws)
           let r := bdFuel fails fuel (.dcs broken room) h
           (r.1, delivered.map (fun ws => (ws, msg)) ++ r.2)) from rfl] at he
      cases hr : h.rooms room with
      | none => rw [hr] at he; simp at he
      | some members =>
        rw [hr] at he
        simp only [List.mem_append] at he
        rcases he with he | he
        · obtain ⟨w, hw, rfl⟩ := List.mem_map.mp he
          left
          have hw' := List.mem_filter.mp (List.mem_filter.mp hw).1
          refine ⟨rfl, ?_⟩
          have := hw'.2
          simpa [bne_iff_ne] using this
        · exact Or.inr (ihdcs _ _ _ _ he)
    · rw [show bdFuel fails (fuel + 1) (.dc ws room) h =
        (let cid := (h.metadata ws).map Meta.client_id
         let uname := (h.metadata ws).bind Meta.username
         let h2 := dcCore h ws room
         (match h2.rooms room with
          | some members2 =>
            bdFuel fails fuel (.bc room (.userLeft room cid uname members2.length) none) h2
          | none => (h2, []))) from rfl] at he
      simp only [] at he
      cases hr : (dcCore h ws room).rooms room with
      | none => rw [hr] at he; simp at he
      | some members2 =>
        rw [hr] at he
        rcases ihbc _ _ _ _ _ he with ⟨he2, _⟩ | hul
        · rw [he2]; rfl
        · exact hul
    · cases wss with
      | nil => rw [bdFuel_dcs_nil] at he; simp at he
      | cons x rest =>
        rw [show bdFuel fails (fuel + 1) (.dcs (x :: rest) room) h =
          (let r1 := bdFuel fails fuel (.dc x room) h
           let r2 := bdFuel fails fuel (.dcs rest room) r1.1
           (r2.1, r1.2 ++ r2.2)) from rfl] at he
        simp only [List.mem_append] at he
        rcases he with he | he
        · exact ihdc _ _ _ _ he
        · exact ihdcs _ _ _ _ he

lemma shrinks_preserves_out {h' h : Handler} (s : Shrinks h' h) (ws : Nat) (room : String)
    (hm : ws ∉ membersOf h room) (hmd : h.metadata ws = none) :
    ws ∉ membersOf h' room ∧ h'.metadata ws = none := by
  constructor
  · intro hc; exact hm ((s.1 room).subset hc)
  · rcases s.2 ws with e | e
    · rw [e]; exact hmd
    · exact e

/-- A disconnect removes the connection from the room and deletes its
metadata, at any fuel, and the cascaded notifications never re-add it. -/
lemma bdFuel_dc_removes (fails : Nat → Bool) (fuel : Nat) (ws : Nat) (room : String)
    (h : Handler) (nd : (membersOf h room).Nodup) :
    ws ∉ membersOf (bdFuel fails fuel (.dc ws room) h).1 room ∧
    (bdFuel fails fuel (.dc ws room) h).1.metadata ws = none := by
  have base : ws ∉ membersOf (dcCore h ws room) room ∧
      (dcCore h ws room).metadata ws = none := by
    constructor
    · rw [dcCore_members, if_pos rfl]
      intro hc
      exact ((List.Nodup.mem_erase_iff nd).mp hc).1 rfl
    · rw [dcCore_metadata, if_pos rfl]
  cases fuel with
  | zero => exact base
  | succ fuel =>
    simp only [bdFuel]
    cases hr : (dcCore h ws room).rooms room with
    | none => exact base
    | some members2 =>
      simp only
      exact shrinks_preserves_out ((bdFuel_shrinks fails fuel).1 _ _ _ _) ws room
        base.1 base.2

/-- Each connection in the `disconnected_clients` worklist ends up removed
from the room with its metadata deleted, provided the fuel covers the list. -/
lemma bdFuel_dcs_removes (fails : Nat → Bool) :
    ∀ fuel : Nat, ∀ wss : List Nat, ∀ room : String, ∀ h : Handler, ∀ ws : Nat,
      ws ∈ wss → wss.length ≤ fuel → (membersOf h room).Nodup →
      ws ∉ membersOf (bdFuel fails fuel (.dcs wss room) h).1 room ∧
      (bdFuel fails fuel (.dcs wss room) h).1.metadata ws = none := by
  intro fuel
  induction fuel with
  | zero =>
    intro wss room h ws hin hlen nd
    have hnil : wss = [] := List.eq_nil_of_length_eq_zero (Nat.le_zero.mp hlen)
    subst hnil
    simp at hin
  | succ fuel ih =>
    intro wss room h ws hin hlen nd
    cases wss with
    | nil => simp at hin
    | cons x rest =>
      rw [show bdFuel fails (fuel + 1) (.dcs (x :: rest) room) h =
        (let r1 := bdFuel fails fuel (.dc x room) h
         let r2 := bdFuel fails fuel (.dcs rest room) r1.1
         (r2.1, r1.2 ++ r2.2)) from rfl]
      simp only
      by_cases hx : ws = x
      · subst hx
        have h1 := bdFuel_dc_removes fails fuel ws room h nd
        exact shrinks_preserves_out ((bdFuel_shrinks fails fuel).2.2 _ _ _) ws room h1.1 h1.2
      · have hin' : ws ∈ rest := by
          rcases List.mem_cons.mp hin with heq | hm
          · exact absurd heq hx
          · exact hm
        have nd' : (membersOf (bdFuel fails fuel (.dc x room) h).1 room).Nodup :=
          List.Sublist.nodup (((bdFuel_shrinks fails fuel).2.1 _ _ _).1 room) nd
        exact ih rest room _ ws hin' (by simpa using Nat.le_of_succ_le_succ hlen) nd'

end WebRTC

namespace WebRTC

/-- C3 counterexample: in room `"r"` of `hThree` there is no member with
client_id `"zz"`; connection 1 sends an `ice_candidate` directed at `"zz"`,
and the handler sends nothing at all — in particular the sender receives no
`error` naming the missing target, contradicting the claim that all three
directed message types uniformly reply with an `error`. -/
theorem C3_counterexample :
    find_websocket_by_client_id hThree "r" "zz" = none ∧
    (handle_ice_candidate noFail 4 hThree "r" 1
      { type := some "ice_candidate", toId := some "zz", candidate := some "cand" }).log
      = [] ∧
    (handle_offer noFail 4 hThree "r" 1
      { type := some "offer", toId := some "zz", offer := some "sdp" }).log
      = [(1, .errMsg "Target client zz not found")] := by
  refine ⟨by decide, by decide, by decide⟩

/-- C3 amended: for an inbound `offer` or `answer` whose `to` does not resolve
to a member of the sender's room, the sender receives an `error` naming the
missing target and no other connection receives anything; for an
`ice_candidate` with an unresolved target the message is dropped silently —
no error is sent to the sender and no connection receives anything.  In all
three cases the registry is unchanged and no exception escapes. -/
theorem C3_amended_unresolved_target (fails : Nat → Bool) (fuel : Nat) (h : Handler)
    (room : String) (sender : Nat) (target : String) (message : InMsg)
    (ht : message.toId = some target) (hne : target ≠ "")
    (hfind : find_websocket_by_client_id h room target = none)
    (hs : fails sender = false) :
    (handle_offer fails fuel h room sender message).log =
      [(sender, .errMsg ("Target client " ++ target ++ " not found"))] ∧
    (handle_offer fails fuel h room sender message).state = h ∧
    (handle_offer fails fuel h room sender message).raised = false ∧
    (handle_answer fails fuel h room sender message).log =
      [(sender, .errMsg ("Target client " ++ target ++ " not found"))] ∧
    (handle_answer fails fuel h room sender message).state = h ∧
    (handle_answer fails fuel h room sender message).raised = false ∧
    (handle_ice_candidate fails fuel h room sender message).log = [] ∧
    (handle_ice_candidate fails fuel h room sender message).state = h ∧
    (handle_ice_candidate fails fuel h room sender message).raised = false := by
  have hie : target.isEmpty = false := by
    simp [Bool.eq_false_iff, String.isEmpty_iff, hne]
  simp [handle_offer, handle_answer, handle_ice_candidate, ht, isTruthy, hie, hfind, hs]

/-- C3 amended witness at a concrete state: target `"zz"` is absent from room
`"r"` of `hThree`. -/
theorem C3_amended_witness :
    (handle_offer noFail 4 hThree "r" 1
      { type := some "offer", toId := some "zz", offer := some "sdp" }).log =
      [(1, .errMsg ("Target client " ++ "zz" ++ " not found"))] ∧
    (handle_offer noFail 4 hThree "r" 1
      { type := some "offer", toId := some "zz", offer := some "sdp" }).state = hThree ∧
    (handle_offer noFail 4 hThree "r" 1
      { type := some "offer", toId := some "zz", offer := some "sdp" }).raised = false ∧
    (handle_answer noFail 4 hThree "r" 1
      { type := some "offer", toId := some "zz", offer := some "sdp" }).log =
      [(1, .errMsg ("Target client " ++ "zz" ++ " not found"))] ∧
    (handle_answer noFail 4 hThree "r" 1
      { type := some "offer", toId := some "zz", offer := some "sdp" }).state = hThree ∧
    (handle_answer noFail 4 hThree "r" 1
      { type := some "offer", toId := some "zz", offer := some "sdp" }).raised = false ∧
    (handle_ice_candidate noFail 4 hThree "r" 1
      { type := some "offer", toId := some "zz", offer := some "sdp" }).log = [] ∧
    (handle_ice_candidate noFail 4 hThree "r" 1
      { type := some "offer", toId := some "zz", offer := some "sdp" }).state = hThree ∧
    (handle_ice_candidate noFail 4 hThree "r" 1
      { type := some "offer", toId := some "zz", offer := some "sdp" }).raised = false :=
  C3_amended_unresolved_target noFail 4 hThree "r" 1 "zz"
    { type := some "offer", toId := some "zz", offer := some "sdp" }
    rfl (by decide) (by decide) rfl

/-- C6: a directed `offer`, `answer` or `ice_candidate` whose `to` resolves to
a room member is delivered to exactly that member, tagged with `from` equal to
the sender's client_id and `username` equal to the sender's display name, the
payload field passed through unmodified; no other send happens and the
registry is unchanged. -/
theorem C6_directed_delivery (fails : Nat → Bool) (fuel : Nat) (h : Handler)
    (room : String) (sender tws : Nat) (target : String) (sm : Meta) (message : InMsg)
    (ht : message.toId = some target) (hne : target ≠ "")
    (hfind : find_websocket_by_client_id h room target = some tws)
    (hmeta : h.metadata sender = some sm)
    (hok : fails tws = false) :
    (handle_offer fails fuel h room sender message).log =
      [(tws, .offerMsg message.offer (some sm.client_id) sm.username)] ∧
    (handle_offer fails fuel h room sender message).state = h ∧
    (handle_offer fails fuel h room sender message).raised = false ∧
    (handle_answer fails fuel h room sender message).log =
      [(tws, .answerMsg message.answer (some sm.client_id) sm.username)] ∧
    (handle_answer fails fuel h room sender message).state = h ∧
    (handle_answer fails fuel h room sender message).raised = false ∧
    (handle_ice_candidate fails fuel h room sender message).log =
      [(tws, .iceMsg message.candidate (some sm.client_id) sm.username)] ∧
    (handle_ice_candidate fails fuel h room sender message).state = h ∧
    (handle_ice_candidate fails fuel h room sender message).raised = false := by
  have hie : target.isEmpty = false := by
    simp [Bool.eq_false_iff, String.isEmpty_iff, hne]
  simp [handle_offer, handle_answer, handle_ice_candidate, ht, isTruthy, hie, hfind,
    hmeta, hok, Option.bind]

/-- C6 witness: in `hThree`, connection 1 (client `"c1"`, user `"alice"`)
sends a directed offer to `"c2"`, which resolves to connection 2. -/
theorem C6_witness :
    (handle_offer noFail 4 hThree "r" 1
      { type := some "offer", toId := some "c2", offer := some "sdp" }).log =
      [(2, .offerMsg (some "sdp") (some (Meta.client_id ⟨"r", some "alice", "c1"⟩))
        (Meta.username ⟨"r", some "alice", "c1"⟩))] ∧
    (handle_offer noFail 4 hThree "r" 1
      { type := some "offer", toId := some "c2", offer := some "sdp" }).state = hThree ∧
    (handle_offer noFail 4 hThree "r" 1
      { type := some "offer", toId := some "c2", offer := some "sdp" }).raised = false ∧
    (handle_answer noFail 4 hThree "r" 1
      { type := some "offer", toId := some "c2", offer := some "sdp" }).log =
      [(2, .answerMsg none (some (Meta.client_id ⟨"r", some "alice", "c1"⟩))
        (Meta.username ⟨"r", some "alice", "c1"⟩))] ∧
    (handle_answer noFail 4 hThree "r" 1
      { type := some "offer", toId := some "c2", offer := some "sdp" }).state = hThree ∧
    (handle_answer noFail 4 hThree "r" 1
      { type := some "offer", toId := some "c2", offer := some "sdp" }).raised = false ∧
    (handle_ice_candidate noFail 4 hThree "r" 1
      { type := some "offer", toId := some "c2", offer := some "sdp" }).log =
      [(2, .iceMsg none (some (Meta.client_id ⟨"r", some "alice", "c1"⟩))
        (Meta.username ⟨"r", some "alice", "c1"⟩))] ∧
    (handle_ice_candidate noFail 4 hThree "r" 1
      { type := some "offer", toId := some "c2", offer := some "sdp" }).state = hThree ∧
    (handle_ice_candidate noFail 4 hThree "r" 1
      { type := some "offer", toId := some "c2", offer := some "sdp" }).raised = false :=
  C6_directed_delivery noFail 4 hThree "r" 1 2 "c2" ⟨"r", some "alice", "c1"⟩
    { type := some "offer", toId := some "c2", offer := some "sdp" }
    rfl (by decide) (by decide) (by decide) rfl

/-- C10: a directed message whose `to` key is present but falsy (the empty
string) is routed as a broadcast to the room excluding the sender — exactly
the `broadcast_to_room` call — not as directed delivery and not as an error
reply, for all three payload-carrying message types. -/
theorem C10_falsy_to_broadcasts (fails : Nat → Bool) (fuel : Nat) (h : Handler)
    (room : String) (sender : Nat) (message : InMsg)
    (ht : message.toId = some "") :
    handle_offer fails fuel h room sender message =
      ⟨(broadcast_to_room fails fuel h room
          (.offerMsg message.offer ((h.metadata sender).map Meta.client_id)
            ((h.metadata sender).bind Meta.username)) (some sender)).1,
        (broadcast_to_room fails fuel h room
          (.offerMsg message.offer ((h.metadata sender).map Meta.client_id)
            ((h.metadata sender).bind Meta.username)) (some sender)).2, false⟩ ∧
    handle_answer fails fuel h room sender message =
      ⟨(broadcast_to_room fails fuel h room
          (.answerMsg message.answer ((h.metadata sender).map Meta.client_id)
            ((h.metadata sender).bind Meta.username)) (some sender)).1,
        (broadcast_to_room fails fuel h room
          (.answerMsg message.answer ((h.metadata sender).map Meta.client_id)
            ((h.metadata sender).bind Meta.username)) (some sender)).2, false⟩ ∧
    handle_ice_candidate fails fuel h room sender message =
      ⟨(broadcast_to_room fails fuel h room
          (.iceMsg message.candidate ((h.metadata sender).map Meta.client_id)
            ((h.metadata sender).bind Meta.username)) (some sender)).1,
        (broadcast_to_room fails fuel h room
          (.iceMsg message.candidate ((h.metadata sender).map Meta.client_id)
            ((h.metadata sender).bind Meta.username)) (some sender)).2, false⟩ := by
  simp [handle_offer, handle_answer, handle_ice_candidate, ht, isTruthy,
    broadcast_to_room, show ("" : String).isEmpty = true from rfl]

/-- C10 witness: connection 1 in `hThree` sends an offer with `to` present but
empty; it is broadcast to members 2 and 3. -/
theorem C10_witness :
    handle_offer noFail 4 hThree "r" 1
      { type := some "offer", toId := some "", offer := some "sdp" } =
      ⟨(broadcast_to_room noFail 4 hThree "r"
          (.offerMsg (some "sdp") ((hThree.metadata 1).map Meta.client_id)
            ((hThree.metadata 1).bind Meta.username)) (some 1)).1,
        (broadcast_to_room noFail 4 hThree "r"
          (.offerMsg (some "sdp") ((hThree.metadata 1).map Meta.client_id)
            ((hThree.metadata 1).bind Meta.username)) (some 1)).2, false⟩ ∧
    handle_answer noFail 4 hThree "r" 1
      { type := some "offer", toId := some "", offer := some "sdp" } =
      ⟨(broadcast_to_room noFail 4 hThree "r"
          (.answerMsg none ((hThree.metadata 1).map Meta.client_id)
            ((hThree.metadata 1).bind Meta.username)) (some 1)).1,
        (broadcast_to_room noFail 4 hThree "r"
          (.answerMsg none ((hThree.metadata 1).map Meta.client_id)
            ((hThree.metadata 1).bind Meta.username)) (some 1)).2, false⟩ ∧
    handle_ice_candidate noFail 4 hThree "r" 1
      { type := some "offer", toId := some "", offer := some "sdp" } =
      ⟨(broadcast_to_room noFail 4 hThree "r"
          (.iceMsg none ((hThree.metadata 1).map Meta.client_id)
            ((hThree.metadata 1).bind Meta.username)) (some 1)).1,
        (broadcast_to_room noFail 4 hThree "r"
          (.iceMsg none ((hThree.metadata 1).map Meta.client_id)
            ((hThree.metadata 1).bind Meta.username)) (some 1)).2, false⟩ :=
  C10_falsy_to_broadcasts noFail 4 hThree "r" 1
    { type := some "offer", toId := some "", offer := some "sdp" } rfl

end WebRTC

namespace WebRTC

/-- C2: a broadcast to a room with an excluded sender delivers the payload to
every member except the excluded one (every non-failing recipient receives
it, and the excluded sender never does); a send failure on one recipient does
not prevent delivery to the others, and each failing recipient is removed
from the room with its metadata deleted.  `broadcast_to_room` is a total
function — the per-recipient failures are absorbed, never propagated to the
caller. -/
theorem C2_broadcast_best_effort (fails : Nat → Bool) (fuel : Nat) (h : Handler)
    (room : String) (members : List Nat) (sender : Nat) (msg : ServerMsg)
    (hm : h.rooms room = some members) (nd : members.Nodup)
    (hmsg : isUserLeftB msg = false) (hf : members.length < fuel) :
    (∀ m ∈ members, m ≠ sender → fails m = false →
      (m, msg) ∈ (broadcast_to_room fails fuel h room msg (some sender)).2) ∧
    (sender, msg) ∉ (broadcast_to_room fails fuel h room msg (some sender)).2 ∧
    (∀ m ∈ members, m ≠ sender → fails m = true →
      m ∉ membersOf (broadcast_to_room fails fuel h room msg (some sender)).1 room ∧
      (broadcast_to_room fails fuel h room msg (some sender)).1.metadata m = none) := by
  obtain ⟨f, rfl⟩ : ∃ f, fuel = f + 1 := ⟨fuel - 1, by omega⟩
  have hmembers : membersOf h room = members := by simp [membersOf, hm]
  have hunf : broadcast_to_room fails (f + 1) h room msg (some sender) =
      ((bdFuel fails f
          (.dcs ((members.filter (fun ws => some sender != some ws)).filter
            (fun ws => fails ws)) room) h).1,
        ((members.filter (fun ws => some sender != some ws)).filter
          (fun ws => !fails ws)).map (fun ws => (ws, msg)) ++
        (bdFuel fails f
          (.dcs ((members.filter (fun ws => some sender != some ws)).filter
            (fun ws => fails ws)) room) h).2) := by
    simp only [broadcast_to_room, bdFuel, hm]
  refine ⟨?_, ?_, ?_⟩
  · intro m hm1 hms hnf
    rw [hunf]
    refine List.mem_append.mpr (Or.inl (List.mem_map.mpr ⟨m, ?_, rfl⟩))
    refine List.mem_filter.mpr ⟨List.mem_filter.mpr ⟨hm1, ?_⟩, by rw [hnf]; rfl⟩
    simp only [bne_iff_ne, ne_eq, Option.some.injEq]
    exact fun e => hms e.symm
  · intro hmem
    rcases (bdFuel_log_shape fails (f + 1)).1 room msg (some sender) h (sender, msg)
        hmem with ⟨_, hne⟩ | hul
    · exact hne rfl
    · rw [hmsg] at hul; exact Bool.false_ne_true hul
  · intro m hm1 hms hfm
    rw [hunf]
    refine bdFuel_dcs_removes fails f _ room h m ?_ ?_ ?_
    · refine List.mem_filter.mpr ⟨List.mem_filter.mpr ⟨hm1, ?_⟩, hfm⟩
      simp only [bne_iff_ne, ne_eq, Option.some.injEq]
      exact fun e => hms e.symm
    · calc ((members.filter (fun ws => some sender != some ws)).filter
            (fun ws => fails ws)).length
          ≤ (members.filter (fun ws => some sender != some ws)).length :=
            List.length_filter_le _ _
        _ ≤ members.length := List.length_filter_le _ _
        _ ≤ f := by omega
    · rw [hmembers]; exact nd

/-- C2 witness: in `hThree`, a broadcast excluding sender 1 with connection 3
failing delivers to 2, removes 3, and never sends the payload to 1. -/
theorem C2_witness :
    (∀ m ∈ [1, 2, 3], m ≠ 1 → (fun w => w == 3) m = false →
      (m, ServerMsg.offerMsg (some "sdp") (some "c1") (some "alice")) ∈
        (broadcast_to_room (fun w => w == 3) 4 hThree "r"
          (.offerMsg (some "sdp") (some "c1") (some "alice")) (some 1)).2) ∧
    (1, ServerMsg.offerMsg (some "sdp") (some "c1") (some "alice")) ∉
      (broadcast_to_room (fun w => w == 3) 4 hThree "r"
        (.offerMsg (some "sdp") (some "c1") (some "alice")) (some 1)).2 ∧
    (∀ m ∈ [1, 2, 3], m ≠ 1 → (fun w => w == 3) m = true →
      m ∉ membersOf (broadcast_to_room (fun w => w == 3) 4 hThree "r"
        (.offerMsg (some "sdp") (some "c1") (some "alice")) (some 1)).1 "r" ∧
      (broadcast_to_room (fun w => w == 3) 4 hThree "r"
        (.offerMsg (some "sdp") (some "c1") (some "alice")) (some 1)).1.metadata m
        = none) :=
  C2_broadcast_best_effort (fun w => w == 3) 4 hThree "r" [1, 2, 3] 1
    (.offerMsg (some "sdp") (some "c1") (some "alice"))
    (by decide) (by decide) rfl (by decide)

end WebRTC

namespace WebRTC

lemma isUserLeftB_not_usersInRoom {m : ServerMsg} (hul : isUserLeftB m = true) :
    isUsersInRoomB m = false := by
  cases m <;> simp [isUserLeftB, isUsersInRoomB] at hul ⊢

lemma filterMap_all_some {l : List Nat} {g : Nat → Option (String × Option String)}
    (hg : ∀ w ∈ l, (g w).isSome = true) :
    List.Forall₂ (fun w p => g w = some p) l (l.filterMap g) := by
  induction l with
  | nil => simp
  | cons x xs ih =>
    have hx := hg x (List.mem_cons_self x xs)
    obtain ⟨p, hp⟩ := Option.isSome_iff_exists.mp hx
    rw [List.filterMap_cons, hp]
    exact List.Forall₂.cons hp (ih fun w hw => hg w (List.mem_cons_of_mem _ hw))

/-- Unfolding of `connect` for a connection that is not already a member of
the target room: the member list gains `ws` at the end, the metadata entry is
written, and the `existing` snapshot is the pre-join members' metadata
pairs. -/
lemma connect_unfold (fails : Nat → Bool) (fuel : Nat) (h : Handler) (ws : Nat)
    (room : String) (u : Option String) (cid : Option String) (gen : String)
    (fresh : ws ∉ membersOf h room) :
    connect fails fuel h ws room u cid gen =
      (let cidv := if isTruthy cid then cid.getD "" else gen
       let h2 := setMeta (setRoom h room (some (membersOf h room ++ [ws]))) ws
         ⟨room, u, cidv⟩
       let ex := (membersOf h room).filterMap
         (fun w => (h.metadata w).map (fun m => (m.client_id, m.username)))
       if ex = [] then
         let r := bdFuel fails fuel
           (.bc room (.userJoined room u cidv (membersOf h room ++ [ws]).length)
             (some ws)) h2
         ⟨r.1, r.2, true⟩
       else if fails ws then ⟨h2, [], false⟩
       else
         let r := bdFuel fails fuel
           (.bc room (.userJoined room u cidv (membersOf h room ++ [ws]).length)
             (some ws)) h2
         ⟨r.1, (ws, .usersInRoom ex) :: r.2, true⟩) := by
  simp only [connect, membersOf] at fresh ⊢
  rw [if_neg fresh]
  have h1 : ((h.rooms room).getD [] ++ [ws]).filter (fun w => w != ws) =
      (h.rooms room).getD [] := by
    rw [List.filter_append]
    have ha : ((h.rooms room).getD []).filter (fun w => w != ws) =
        (h.rooms room).getD [] :=
      List.filter_eq_self.mpr (fun a ha => bne_iff_ne.mpr (fun e => fresh (e ▸ ha)))
    rw [ha]
    simp
  rw [h1]
  have h2m : ((h.rooms room).getD []).filterMap
      (fun w => ((setMeta (setRoom h room (some ((h.rooms room).getD [] ++ [ws]))) ws
        ⟨room, u, if isTruthy cid then cid.getD "" else gen⟩).metadata w).map
          (fun m => (m.client_id, m.username))) =
      ((h.rooms room).getD []).filterMap
        (fun w => (h.metadata w).map (fun m => (m.client_id, m.username))) := by
    refine List.filterMap_congr (fun x hx => ?_)
    have hxne : x ≠ ws := fun e => fresh (e ▸ hx)
    simp [setMeta, setRoom, hxne]
  rw [h2m]

end WebRTC

namespace WebRTC

/-- C5: on a join, the joining connection receives exactly one
`users_in_room` snapshot, and only when the room already had members; the
snapshot lists exactly the (client_id, username) pairs of the members present
before the join — one entry per pre-join member, in order — and the joining
connection's own entry is never among them (the snapshot is built from the
pre-join member list, which does not contain the joiner). -/
theorem C5_join_snapshot (fails : Nat → Bool) (fuel : Nat) (h : Handler) (ws : Nat)
    (room : String) (u : Option String) (cid : Option String) (gen : String)
    (fresh : ws ∉ membersOf h room)
    (consis : ∀ w ∈ membersOf h room, (h.metadata w).isSome = true)
    (hok : fails ws = false) :
    ((connect fails fuel h ws room u cid gen).log.filter
      (fun e => isUsersInRoomB e.2) =
      if membersOf h room = [] then []
      else [(ws, .usersInRoom ((membersOf h room).filterMap
        (fun w => (h.metadata w).map (fun m => (m.client_id, m.username)))))]) ∧
    List.Forall₂ (fun w p => ∃ m, h.metadata w = some m ∧ p = (m.client_id, m.username))
      (membersOf h room)
      ((membersOf h room).filterMap
        (fun w => (h.metadata w).map (fun m => (m.client_id, m.username)))) := by
  have hg : ∀ w ∈ membersOf h room,
      ((h.metadata w).map (fun m => (m.client_id, m.username))).isSome = true := by
    intro w hw
    rw [Option.isSome_map']
    exact consis w hw
  have hfa := filterMap_all_some hg
  have part2 : List.Forall₂
      (fun w p => ∃ m, h.metadata w = some m ∧ p = (m.client_id, m.username))
      (membersOf h room)
      ((membersOf h room).filterMap
        (fun w => (h.metadata w).map (fun m => (m.client_id, m.username)))) :=
    hfa.imp (fun a b hab => by
      obtain ⟨m, hm1, hm2⟩ := Option.map_eq_some'.mp hab
      exact ⟨m, hm1, hm2.symm⟩)
  refine ⟨?_, part2⟩
  rw [connect_unfold fails fuel h ws room u cid gen fresh]
  by_cases h0 : membersOf h room = []
  · rw [h0]
    simp only [List.filterMap_nil, if_pos rfl]
    refine List.filter_eq_nil_iff.mpr (fun e he => ?_)
    rcases (bdFuel_log_shape fails fuel).1 _ _ _ _ e he with ⟨he2, _⟩ | hul
    · rw [he2]; simp [isUsersInRoomB]
    · simp [isUserLeftB_not_usersInRoom hul]
  · have hexne : (membersOf h room).filterMap
        (fun w => (h.metadata w).map (fun m => (m.client_id, m.username))) ≠ [] := by
      intro hnil
      apply h0
      have hlen := List.Forall₂.length_eq hfa
      rw [hnil] at hlen
      exact List.eq_nil_of_length_eq_zero hlen
    simp only [if_neg hexne, hok, Bool.false_eq_true, if_false, if_neg h0]
    rw [List.filter_cons_of_pos (by simp [isUsersInRoomB])]
    have htail : (bdFuel fails fuel
        (.bc room (.userJoined room u (if isTruthy cid then cid.getD "" else gen)
          (membersOf h room ++ [ws]).length) (some ws))
        (setMeta (setRoom h room (some (membersOf h room ++ [ws]))) ws
          ⟨room, u, if isTruthy cid then cid.getD "" else gen⟩)).2.filter
        (fun e => isUsersInRoomB e.2) = [] := by
      refine List.filter_eq_nil_iff.mpr (fun e he => ?_)
      rcases (bdFuel_log_shape fails fuel).1 _ _ _ _ e he with ⟨he2, _⟩ | hul
      · rw [he2]; simp [isUsersInRoomB]
      · simp [isUserLeftB_not_usersInRoom hul]
    rw [htail]

/-- C5 witness: connection 4 joins room `"r"` of `hThree`; the snapshot lists
the three pre-existing members and is sent once. -/
theorem C5_witness :
    ((connect noFail 3 hThree 4 "r" (some "dave") (some "c4") "gen").log.filter
      (fun e => isUsersInRoomB e.2) =
      if membersOf hThree "r" = [] then []
      else [(4, .usersInRoom ((membersOf hThree "r").filterMap
        (fun w => (hThree.metadata w).map (fun m => (m.client_id, m.username)))))]) ∧
    List.Forall₂ (fun w p => ∃ m, hThree.metadata w = some m ∧
        p = (m.client_id, m.username))
      (membersOf hThree "r")
      ((membersOf hThree "r").filterMap
        (fun w => (hThree.metadata w).map (fun m => (m.client_id, m.username)))) :=
  C5_join_snapshot noFail 3 hThree 4 "r" (some "dave") (some "c4") "gen"
    (by decide) (by decide) rfl

end WebRTC

namespace WebRTC

/-- If no member of the room carries the client_id (or the room is absent),
the lookup returns none. -/
lemma find_eq_none_of_no_match (h : Handler) (room cidv : String)
    (hno : ∀ w ∈ membersOf h room, ∀ m, h.metadata w = some m → m.client_id ≠ cidv) :
    find_websocket_by_client_id h room cidv = none := by
  unfold find_websocket_by_client_id
  cases hr : h.rooms room with
  | none => rfl
  | some members =>
    simp only []
    refine List.find?_eq_none.mpr (fun x hx => ?_)
    have hx' : x ∈ membersOf h room := by rw [membersOf, hr]; exact hx
    cases hm : h.metadata x with
    | none => simp [hm]
    | some m => simp [hm, beq_eq_false_iff_ne.mpr (hno x hx' m hm)]

/-- C7: after a join of `ws` with client_id `cidv` into a room none of whose
members carries `cidv`, the lookup returns exactly `ws` (the most recently
joined connection with that client_id); after that connection's leave the
lookup returns none; and for an absent room the lookup returns none.  The
lookup is a pure function of the current registry state, so it always
reflects the latest join/leave state. -/
theorem C7_find_latest (fuel1 fuel2 : Nat) (h : Handler) (ws : Nat) (room : String)
    (u : Option String) (gen : String) (cidv : String)
    (hne : cidv ≠ "") (fresh : ws ∉ membersOf h room)
    (huniq : ∀ w ∈ membersOf h room, ∀ m, h.metadata w = some m → m.client_id ≠ cidv) :
    find_websocket_by_client_id
      (connect noFail fuel1 h ws room u (some cidv) gen).state room cidv = some ws ∧
    find_websocket_by_client_id
      (disconnect noFail fuel2 (connect noFail fuel1 h ws room u (some cidv) gen).state
        ws room).1 room cidv = none ∧
    (∀ h' : Handler, ∀ r c : String, h'.rooms r = none →
      find_websocket_by_client_id h' r c = none) := by
  have htr : isTruthy (some cidv) = true := by
    simp [isTruthy, Bool.eq_false_iff, String.isEmpty_iff, hne]
  have hstate : (connect noFail fuel1 h ws room u (some cidv) gen).state =
      setMeta (setRoom h room (some (membersOf h room ++ [ws]))) ws ⟨room, u, cidv⟩ := by
    rw [connect_unfold noFail fuel1 h ws room u (some cidv) gen fresh]
    simp only [htr, if_true, Option.getD_some]
    by_cases hex : (membersOf h room).filterMap
        (fun w => (h.metadata w).map (fun m => (m.client_id, m.username))) = []
    · simp [hex, bdFuel_noFail_bc_state]
    · simp [hex, noFail, bdFuel_noFail_bc_state]
  rw [hstate]
  have hrooms1 : (setMeta (setRoom h room (some (membersOf h room ++ [ws]))) ws
      ⟨room, u, cidv⟩).rooms room = some (membersOf h room ++ [ws]) := by
    simp [setMeta, setRoom]
  have hmeta1 : ∀ w, w ≠ ws →
      (setMeta (setRoom h room (some (membersOf h room ++ [ws]))) ws
        ⟨room, u, cidv⟩).metadata w = h.metadata w := by
    intro w hw
    simp [setMeta, setRoom, hw]
  refine ⟨?_, ?_, ?_⟩
  · unfold find_websocket_by_client_id
    rw [hrooms1]
    simp only []
    rw [List.find?_append]
    have hnone : (membersOf h room).find? (fun w =>
        match (setMeta (setRoom h room (some (membersOf h room ++ [ws]))) ws
          ⟨room, u, cidv⟩).metadata w with
        | some m => m.client_id == cidv
        | none => false) = none := by
      refine List.find?_eq_none.mpr (fun x hx => ?_)
      have hxne : x ≠ ws := fun e => fresh (e ▸ hx)
      rw [hmeta1 x hxne]
      cases hm : h.metadata x with
      | none => simp [hm]
      | some m => simp [hm, beq_eq_false_iff_ne.mpr (huniq x hx m hm)]
    rw [hnone, Option.none_or]
    refine List.find?_cons_of_pos _ ?_
    have : (setMeta (setRoom h room (some (membersOf h room ++ [ws]))) ws
        ⟨room, u, cidv⟩).metadata ws = some ⟨room, u, cidv⟩ := by
      simp [setMeta]
    simp [this]
  · rw [disconnect, bdFuel_noFail_dc_state]
    refine find_eq_none_of_no_match _ room cidv ?_
    intro w hw m hm
    rw [dcCore_members] at hw
    rw [if_pos rfl] at hw
    rw [membersOf, hrooms1] at hw
    simp only [Option.getD_some] at hw
    rw [List.erase_append_right _ fresh] at hw
    simp only [List.erase_cons_head, List.append_nil] at hw
    have hwne : w ≠ ws := fun e => fresh (e ▸ hw)
    rw [dcCore_metadata, if_neg hwne, hmeta1 w hwne] at hm
    exact huniq w hw m hm
  · intro h' r c hr
    unfold find_websocket_by_client_id
    rw [hr]

/-- C7 witness: connection 4 joins room `"r"` of `hThree` with fresh
client_id `"c9"`; the lookup then returns 4, and after 4's leave it returns
none. -/
theorem C7_witness :
    find_websocket_by_client_id
      (connect noFail 3 hThree 4 "r" (some "dave") (some "c9") "gen").state "r" "c9"
      = some 4 ∧
    find_websocket_by_client_id
      (disconnect noFail 3 (connect noFail 3 hThree 4 "r" (some "dave")
        (some "c9") "gen").state 4 "r").1 "r" "c9" = none ∧
    (∀ h' : Handler, ∀ r c : String, h'.rooms r = none →
      find_websocket_by_client_id h' r c = none) :=
  C7_find_latest 3 3 hThree 4 "r" (some "dave") "gen" "c9"
    (by decide) (by decide) (by decide)

end WebRTC

namespace WebRTC

/-- C9 counterexample: connection 1 was never registered (`hOne` has no
metadata for it and it is in no room), yet `disconnect(1, "r")` broadcasts a
`user_left` notification with null client_id and username to the member of
room `"r"` — the claim that no notification is sent to any room member is
false. -/
theorem C9_counterexample :
    hOne.metadata 1 = none ∧ (1 ∉ membersOf hOne "r") ∧
    (disconnect noFail 2 hOne 1 "r").2 = [(2, .userLeft "r" none none 1)] :=
  ⟨by decide, by decide, by decide⟩

/-- C9 amended: a leave of a never-registered connection changes no registry
state and raises no error (the call is a registry no-op), but it is not
silent: if the passed room_id names an existing room, a `user_left`
notification carrying null client_id and username and the room's current
member count is still broadcast to all of that room's members; only when the
room does not exist is nothing sent. -/
theorem C9_amended_unregistered_leave (fuel : Nat) (h : Handler) (ws : Nat)
    (room : String)
    (hmeta : h.metadata ws = none) (hmem : ws ∉ membersOf h room)
    (hnonempty : ∀ l, h.rooms room = some l → l ≠ []) :
    (∀ r, (disconnect noFail (fuel + 2) h ws room).1.rooms r = h.rooms r) ∧
    (∀ w, (disconnect noFail (fuel + 2) h ws room).1.metadata w = h.metadata w) ∧
    (h.rooms room = none → (disconnect noFail (fuel + 2) h ws room).2 = []) ∧
    (∀ members, h.rooms room = some members →
      (disconnect noFail (fuel + 2) h ws room).2 =
        members.map (fun w => (w, .userLeft room none none members.length))) := by
  have hstate : (disconnect noFail (fuel + 2) h ws room).1 = dcCore h ws room := by
    rw [disconnect, bdFuel_noFail_dc_state]
  have hmem' : ∀ members, h.rooms room = some members → ws ∉ members := by
    intro members hr hc
    exact hmem (by rw [membersOf, hr]; exact hc)
  refine ⟨?_, ?_, ?_, ?_⟩
  · intro r
    rw [hstate]
    unfold dcCore
    cases hr : h.rooms room with
    | none =>
      by_cases hcase : r = room <;> simp [hcase, hr, delMeta]
    | some members =>
      have he : members.erase ws = members := List.erase_of_not_mem (hmem' members hr)
      by_cases hcase : r = room <;>
        simp [hcase, hr, he, hnonempty members hr, delMeta, setRoom]
  · intro w
    rw [hstate, dcCore_metadata]
    by_cases hw : w = ws <;> simp [hw, hmeta]
  · intro hr
    rw [disconnect,
      show bdFuel noFail (fuel + 2) (.dc ws room) h =
        (let cid := (h.metadata ws).map Meta.client_id
         let uname := (h.metadata ws).bind Meta.username
         let h2 := dcCore h ws room
         (match h2.rooms room with
          | some members2 =>
            bdFuel noFail (fuel + 1)
              (.bc room (.userLeft room cid uname members2.length) none) h2
          | none => (h2, []))) from rfl]
    simp only []
    have h2r : (dcCore h ws room).rooms room = none := by
      unfold dcCore
      simp [hr, delMeta]
    rw [h2r]
  · intro members hr
    have h2r : (dcCore h ws room).rooms room = some members := by
      unfold dcCore
      have he : members.erase ws = members := List.erase_of_not_mem (hmem' members hr)
      simp only [hr, he]
      rw [if_neg (hnonempty members hr)]
      simp [delMeta, setRoom]
    rw [disconnect,
      show bdFuel noFail (fuel + 2) (.dc ws room) h =
        (let cid := (h.metadata ws).map Meta.client_id
         let uname := (h.metadata ws).bind Meta.username
         let h2 := dcCore h ws room
         (match h2.rooms room with
          | some members2 =>
            bdFuel noFail (fuel + 1)
              (.bc room (.userLeft room cid uname members2.length) none) h2
          | none => (h2, []))) from rfl]
    simp only [hmeta, Option.map_none', Option.none_bind]
    rw [h2r]
    change (bdFuel noFail (fuel + 1)
      (.bc room (.userLeft room none none members.length) none) (dcCore h ws room)).2 =
      members.map (fun w => (w, ServerMsg.userLeft room none none members.length))
    simp only [bdFuel_noFail_bc, h2r, Option.getD_some]
    have hfilter : members.filter (fun w => (none : Option Nat) != some w) = members :=
      List.filter_eq_self.mpr (fun a _ => rfl)
    rw [hfilter]

/-- C9 amended witness: `hOne` with unregistered connection 7. -/
theorem C9_amended_witness :
    (∀ r, (disconnect noFail 3 hOne 7 "r").1.rooms r = hOne.rooms r) ∧
    (∀ w, (disconnect noFail 3 hOne 7 "r").1.metadata w = hOne.metadata w) ∧
    (hOne.rooms "r" = none → (disconnect noFail 3 hOne 7 "r").2 = []) ∧
    (∀ members, hOne.rooms "r" = some members →
      (disconnect noFail 3 hOne 7 "r").2 =
        members.map (fun w => (w, .userLeft "r" none none members.length))) :=
  C9_amended_unregistered_leave 1 hOne 7 "r" (by decide) (by decide)
    (by intro l hl; cases hl; decide)

end WebRTC

namespace WebRTC

lemma dcCore_rooms (h : Handler) (ws : Nat) (room : String) (r : String) :
    (dcCore h ws room).rooms r =
      if r = room then
        match h.rooms room with
        | none => none
        | some members =>
          if members.erase ws = [] then none else some (members.erase ws)
      else h.rooms r := by
  unfold dcCore
  cases hr : h.rooms room with
  | none =>
    by_cases hcase : r = room <;> simp [hcase, hr, delMeta]
  | some members =>
    by_cases he : members.erase ws = [] <;> by_cases hcase : r = room <;>
      simp [hcase, hr, he, delMeta, setRoom]

lemma stepOp_join_rooms (h : Handler) (ws : Nat) (room : String) (u : Option String)
    (cid : Option String) (gen : String) (fresh : ws ∉ membersOf h room) (r : String) :
    (stepOp h (.join ws room u cid gen)).rooms r =
      if r = room then some (membersOf h room ++ [ws]) else h.rooms r := by
  show (connect noFail 1 h ws room u cid gen).state.rooms r = _
  rw [connect_unfold noFail 1 h ws room u cid gen fresh]
  by_cases hex : (membersOf h room).filterMap
      (fun w => (h.metadata w).map (fun m => (m.client_id, m.username))) = [] <;>
    simp [hex, noFail, bdFuel_noFail_bc_state, setMeta, setRoom]

lemma stepOp_leave_state (h : Handler) (ws : Nat) (room : String) :
    stepOp h (.leave ws room) = dcCore h ws room := by
  show (disconnect noFail 1 h ws room).1 = dcCore h ws room
  rw [disconnect, bdFuel_noFail_dc_state]

/-- The induction core for claim C1: along any well-formed trace, a room's
member count changes by exactly the joins into it minus the completed leaves
from it, and rooms stay nonempty and duplicate-free. -/
lemma runOps_count_good (r : String) :
    ∀ ops : List Op, ∀ h : Handler, GoodRooms h → wfOps h ops = true →
      memberCountOf (runOps h ops) r + leaveTally h r ops =
        memberCountOf h r + joinTally r ops ∧
      GoodRooms (runOps h ops) := by
  intro ops
  induction ops with
  | nil =>
    intro h hg _
    exact ⟨by simp [runOps, leaveTally, joinTally], by simpa [runOps] using hg⟩
  | cons op ops ih =>
    intro h hg hwf
    cases op with
    | join ws room u cid gen =>
      simp only [wfOps, Bool.and_eq_true, Bool.not_eq_true', decide_eq_false_iff_not]
        at hwf
      obtain ⟨fresh, hwf'⟩ := hwf
      have hrooms := stepOp_join_rooms h ws room u cid gen fresh
      have hmembers : ∀ r2, membersOf (stepOp h (.join ws room u cid gen)) r2 =
          if r2 = room then membersOf h room ++ [ws] else membersOf h r2 := by
        intro r2
        rw [membersOf, hrooms r2]
        by_cases hc : r2 = room <;> simp [hc, membersOf]
      have hndm : (membersOf h room).Nodup := by
        cases hm : h.rooms room with
        | none => simp [membersOf, hm]
        | some m0 =>
          have := (hg room m0 hm).2
          simpa [membersOf, hm] using this
      have hgood' : GoodRooms (stepOp h (.join ws room u cid gen)) := by
        intro r2 l hl
        rw [hrooms r2] at hl
        by_cases hc : r2 = room
        · rw [if_pos hc] at hl
          injection hl with hl
          subst hl
          refine ⟨by simp, ?_⟩
          rw [List.nodup_append]
          exact ⟨hndm, by simp, fun a ha hb => by
            simp only [List.mem_singleton] at hb
            exact fresh (hb ▸ ha)⟩
        · rw [if_neg hc] at hl
          exact hg r2 l hl
      obtain ⟨ihEq, ihGood⟩ := ih (stepOp h (.join ws room u cid gen)) hgood' hwf'
      have hcount : memberCountOf (stepOp h (.join ws room u cid gen)) r =
          memberCountOf h r + (if room = r then 1 else 0) := by
        unfold memberCountOf
        rw [hmembers r]
        by_cases hc : r = room
        · simp [hc]
        · have hc2 : ¬room = r := fun e => hc e.symm
          simp [hc, hc2]
      rw [hcount] at ihEq
      refine ⟨?_, by simpa [runOps] using ihGood⟩
      simp only [runOps, leaveTally, joinTally]
      by_cases hc : room = r <;> simp [hc] at ihEq ⊢ <;> omega
    | leave ws room =>
      simp only [wfOps, Bool.true_and] at hwf
      have hwf' := hwf
      have hstate := stepOp_leave_state h ws room
      have hmembers : ∀ r2, membersOf (stepOp h (.leave ws room)) r2 =
          if r2 = room then (membersOf h room).erase ws else membersOf h r2 := by
        intro r2
        rw [hstate]
        exact dcCore_members h ws room r2
      have hgood' : GoodRooms (stepOp h (.leave ws room)) := by
        rw [hstate]
        intro r2 l hl
        rw [dcCore_rooms] at hl
        by_cases hc : r2 = room
        · rw [if_pos hc] at hl
          cases hm : h.rooms room with
          | none => rw [hm] at hl; cases hl
          | some m0 =>
            simp only [hm] at hl
            by_cases he : m0.erase ws = []
            · rw [if_pos he] at hl; cases hl
            · rw [if_neg he] at hl
              injection hl with hl
              subst hl
              exact ⟨he, List.Nodup.erase ws (hg room m0 hm).2⟩
        · rw [if_neg hc] at hl
          exact hg r2 l hl
      obtain ⟨ihEq, ihGood⟩ := ih (stepOp h (.leave ws room)) hgood' hwf'
      have hcount : memberCountOf (stepOp h (.leave ws room)) r +
          (if room = r ∧ ws ∈ membersOf h room then 1 else 0) = memberCountOf h r := by
        unfold memberCountOf
        rw [hmembers r]
        by_cases hc : r = room
        · subst hc
          by_cases hmem : ws ∈ membersOf h r
          · have hlen := List.length_erase_of_mem hmem
            have hpos : 0 < (membersOf h r).length := List.length_pos.mpr
              (List.ne_nil_of_mem hmem)
            rw [if_pos rfl, if_pos (show r = r ∧ ws ∈ membersOf h r from ⟨rfl, hmem⟩)]
            omega
          · rw [if_pos rfl, List.erase_of_not_mem hmem,
              if_neg (show ¬(r = r ∧ ws ∈ membersOf h r) from fun hand => hmem hand.2)]
            omega
        · have hc2 : ¬room = r := fun e => hc e.symm
          rw [if_neg hc,
            if_neg (show ¬(room = r ∧ ws ∈ membersOf h room) from fun hand => hc2 hand.1)]
          omega
      refine ⟨?_, by simpa [runOps] using ihGood⟩
      simp only [runOps, leaveTally, joinTally]
      omega

/-- C1: starting from the empty registry, after any well-formed sequence of
join and leave operations, each room's member count equals the number of
joins into it minus the number of completed leaves (leaves whose connection
was a member at the time), and the room is present in the registry if and
only if that count is strictly positive. -/
theorem C1_registry_count (ops : List Op) (r : String)
    (hwf : wfOps emptyHandler ops = true) :
    memberCountOf (runOps emptyHandler ops) r =
      joinTally r ops - leaveTally emptyHandler r ops ∧
    leaveTally emptyHandler r ops ≤ joinTally r ops ∧
    ((runOps emptyHandler ops).rooms r ≠ none ↔
      0 < joinTally r ops - leaveTally emptyHandler r ops) := by
  have hgood : GoodRooms emptyHandler := fun r2 l hl => by simp [emptyHandler] at hl
  obtain ⟨heq, hgood'⟩ := runOps_count_good r ops emptyHandler hgood hwf
  have h0 : memberCountOf emptyHandler r = 0 := rfl
  rw [h0] at heq
  have hpres : (runOps emptyHandler ops).rooms r ≠ none ↔
      0 < memberCountOf (runOps emptyHandler ops) r := by
    constructor
    · intro hne
      cases hm : (runOps emptyHandler ops).rooms r with
      | none => exact absurd hm hne
      | some l =>
        have hl := (hgood' r l hm).1
        unfold memberCountOf membersOf
        rw [hm]
        simpa [List.length_pos] using hl
    · intro hpos hm
      unfold memberCountOf membersOf at hpos
      rw [hm] at hpos
      simp at hpos
  refine ⟨by omega, by omega, ?_⟩
  rw [hpres]
  omega

/-- C1 witness: connections 1 and 2 join room `"r"`, then 1 leaves. -/
theorem C1_witness :
    memberCountOf (runOps emptyHandler
      [Op.join 1 "r" (some "a") (some "c1") "g",
       Op.join 2 "r" (some "b") (some "c2") "g2",
       Op.leave 1 "r"]) "r" =
      joinTally "r"
        [Op.join 1 "r" (some "a") (some "c1") "g",
         Op.join 2 "r" (some "b") (some "c2") "g2",
         Op.leave 1 "r"] -
      leaveTally emptyHandler "r"
        [Op.join 1 "r" (some "a") (some "c1") "g",
         Op.join 2 "r" (some "b") (some "c2") "g2",
         Op.leave 1 "r"] ∧
    leaveTally emptyHandler "r"
      [Op.join 1 "r" (some "a") (some "c1") "g",
       Op.join 2 "r" (some "b") (some "c2") "g2",
       Op.leave 1 "r"] ≤
      joinTally "r"
        [Op.join 1 "r" (some "a") (some "c1") "g",
         Op.join 2 "r" (some "b") (some "c2") "g2",
         Op.leave 1 "r"] ∧
    ((runOps emptyHandler
      [Op.join 1 "r" (some "a") (some "c1") "g",
       Op.join 2 "r" (some "b") (some "c2") "g2",
       Op.leave 1 "r"]).rooms "r" ≠ none ↔
      0 < joinTally "r"
        [Op.join 1 "r" (some "a") (some "c1") "g",
         Op.join 2 "r" (some "b") (some "c2") "g2",
         Op.leave 1 "r"] -
        leaveTally emptyHandler "r"
          [Op.join 1 "r" (some "a") (some "c1") "g",
           Op.join 2 "r" (some "b") (some "c2") "g2",
           Op.leave 1 "r"]) :=
  C1_registry_count
    [Op.join 1 "r" (some "a") (some "c1") "g",
     Op.join 2 "r" (some "b") (some "c2") "g2",
     Op.leave 1 "r"] "r" (by decide)

end WebRTC

namespace WebRTC

lemma handle_offer_shrinks (fails : Nat → Bool) (fuel : Nat) (h : Handler)
    (room : String) (sender : Nat) (m : InMsg) :
    Shrinks (handle_offer fails fuel h room sender m).state h := by
  unfold handle_offer
  split
  · split
    · split
      · exact shrinks_refl h
      · exact shrinks_refl h
    · split
      · exact shrinks_refl h
      · exact shrinks_refl h
  · exact (bdFuel_shrinks fails fuel).1 _ _ _ _

lemma handle_answer_shrinks (fails : Nat → Bool) (fuel : Nat) (h : Handler)
    (room : String) (sender : Nat) (m : InMsg) :
    Shrinks (handle_answer fails fuel h room sender m).state h := by
  unfold handle_answer
  split
  · split
    · split
      · exact shrinks_refl h
      · exact shrinks_refl h
    · split
      · exact shrinks_refl h
      · exact shrinks_refl h
  · exact (bdFuel_shrinks fails fuel).1 _ _ _ _

lemma handle_ice_shrinks (fails : Nat → Bool) (fuel : Nat) (h : Handler)
    (room : String) (sender : Nat) (m : InMsg) :
    Shrinks (handle_ice_candidate fails fuel h room sender m).state h := by
  unfold handle_ice_candidate
  split
  · split
    · split
      · exact shrinks_refl h
      · exact shrinks_refl h
    · exact shrinks_refl h
  · exact (bdFuel_shrinks fails fuel).1 _ _ _ _

/-- Processing any single inbound message only shrinks the registry: directed
sends, ping replies and error replies leave it unchanged, broadcasts may
remove failing recipients. -/
lemma handle_message_shrinks (fails : Nat → Bool) (fuel : Nat) (h : Handler)
    (room : String) (sender : Nat) (m : InMsg) :
    Shrinks (handle_message fails fuel h room sender m).state h := by
  unfold handle_message
  simp only []
  repeat' split
  all_goals
    first
    | exact handle_offer_shrinks fails fuel h room sender m
    | exact handle_answer_shrinks fails fuel h room sender m
    | exact handle_ice_shrinks fails fuel h room sender m
    | exact shrinks_refl h

/-- The endpoint's receive loop only shrinks the registry. -/
lemma endpointLoop_shrinks (fails : Nat → Bool) (fuel : Nat) (allow : Nat → Bool)
    (room : String) (ws : Nat) :
    ∀ msgs : List InMsg, ∀ i : Nat, ∀ h : Handler,
      Shrinks (endpointLoop fails fuel allow room ws i msgs h).1 h := by
  intro msgs
  induction msgs with
  | nil =>
    intro i h
    unfold endpointLoop
    split
    · exact shrinks_refl h
    · exact shrinks_refl h
  | cons m rest ih =>
    intro i h
    unfold endpointLoop
    split
    · exact shrinks_refl h
    · simp only []
      split
      · exact handle_message_shrinks fails fuel h room ws m
      · exact shrinks_trans (ih (i + 1) _) (handle_message_shrinks fails fuel h room ws m)

end WebRTC

namespace WebRTC

/-- C4 counterexample: room `"r"` of `hOne` already has a member, so
`connect` of connection 1 sends a `users_in_room` snapshot to 1; connection
1's transport fails, the send raises inside `connect` — after the registry
was already mutated — so the endpoint's `connected` flag is never set and the
`finally` block skips the cleanup.  The endpoint finishes with zero cleanups
and connection 1 still registered in the room with live metadata: cleanup ran
zero times on this termination path, refuting "never zero times". -/
theorem C4_counterexample :
    (websocket_endpoint (fun w => w == 1) 4 (fun _ => true) hOne 1 "r" (some "alice")
      (some "c1") "gen" []).cleanups = 0 ∧
    1 ∈ membersOf (websocket_endpoint (fun w => w == 1) 4 (fun _ => true) hOne 1 "r"
      (some "alice") (some "c1") "gen" []).state "r" ∧
    ((websocket_endpoint (fun w => w == 1) 4 (fun _ => true) hOne 1 "r" (some "alice")
      (some "c1") "gen" []).state.metadata 1).isSome = true :=
  ⟨by decide, by decide, by decide⟩

/-- C4 amended: on every termination path reached after `connect` returned
without raising (normal client close, exception mid-message-processing,
rate-limit close), the endpoint's `finally` block runs the disconnect cleanup
exactly once, and the connection ends up removed from its room with its
metadata deleted.  But if the `users_in_room` send inside `connect` raises —
possible only when the room already had members and the joiner's transport
fails — the `connected` flag is never set, cleanup runs zero times, and the
connection's registry entries leak (see the counterexample). -/
theorem C4_amended_cleanup (fails : Nat → Bool) (fuel : Nat) (allow : Nat → Bool)
    (h : Handler) (ws : Nat) (room : String) (u cid : Option String) (gen : String)
    (msgs : List InMsg)
    (hok : (connect fails fuel h ws room u cid gen).ok = true)
    (fresh : ws ∉ membersOf h room) (nd : (membersOf h room).Nodup) :
    (websocket_endpoint fails fuel allow h ws room u cid gen msgs).cleanups = 1 ∧
    ws ∉ membersOf
      (websocket_endpoint fails fuel allow h ws room u cid gen msgs).state room ∧
    (websocket_endpoint fails fuel allow h ws room u cid gen msgs).state.metadata ws
      = none := by
  have hcs : Shrinks (connect fails fuel h ws room u cid gen).state
      (setMeta (setRoom h room (some (membersOf h room ++ [ws]))) ws
        ⟨room, u, if isTruthy cid then cid.getD "" else gen⟩) := by
    rw [connect_unfold fails fuel h ws room u cid gen fresh]
    by_cases hex : (membersOf h room).filterMap
        (fun w => (h.metadata w).map (fun m => (m.client_id, m.username))) = []
    · simp only [if_pos hex]
      exact (bdFuel_shrinks fails fuel).1 _ _ _ _
    · by_cases hfw : fails ws = true
      · simp only [if_neg hex, hfw, if_true]
        exact shrinks_refl _
      · simp only [if_neg hex, hfw, if_false]
        exact (bdFuel_shrinks fails fuel).1 _ _ _ _
  have hm2 : membersOf (setMeta (setRoom h room (some (membersOf h room ++ [ws]))) ws
      ⟨room, u, if isTruthy cid then cid.getD "" else gen⟩) room =
      membersOf h room ++ [ws] := by
    simp [membersOf, setMeta, setRoom]
  have nd2 : (membersOf h room ++ [ws]).Nodup := by
    rw [List.nodup_append]
    exact ⟨nd, by simp, fun a ha hb => by
      simp only [List.mem_singleton] at hb
      exact fresh (hb ▸ ha)⟩
  have ndh2 : (membersOf (setMeta (setRoom h room (some (membersOf h room ++ [ws]))) ws
      ⟨room, u, if isTruthy cid then cid.getD "" else gen⟩) room).Nodup := by
    rw [hm2]; exact nd2
  have ndc : (membersOf (connect fails fuel h ws room u cid gen).state room).Nodup :=
    List.Sublist.nodup (hcs.1 room) ndh2
  have ndl : (membersOf (endpointLoop fails fuel allow room ws 0 msgs
      (connect fails fuel h ws room u cid gen).state).1 room).Nodup :=
    List.Sublist.nodup
      ((endpointLoop_shrinks fails fuel allow room ws msgs 0
        (connect fails fuel h ws room u cid gen).state).1 room) ndc
  have hrem := bdFuel_dc_removes fails fuel ws room
    (endpointLoop fails fuel allow room ws 0 msgs
      (connect fails fuel h ws room u cid gen).state).1 ndl
  refine ⟨?_, ?_, ?_⟩ <;> simp [websocket_endpoint, hok]
  · exact hrem.1
  · exact hrem.2

/-- C4 amended witness: connection 3 joins `hOne`'s room `"r"` with reliable
transports, processes a ping, and disconnects. -/
theorem C4_amended_witness :
    (websocket_endpoint noFail 4 (fun _ => true) hOne 3 "r" (some "carol") (some "c3")
      "gen" [{ type := some "ping" }]).cleanups = 1 ∧
    3 ∉ membersOf (websocket_endpoint noFail 4 (fun _ => true) hOne 3 "r" (some "carol")
      (some "c3") "gen" [{ type := some "ping" }]).state "r" ∧
    (websocket_endpoint noFail 4 (fun _ => true) hOne 3 "r" (some "carol") (some "c3")
      "gen" [{ type := some "ping" }]).state.metadata 3 = none :=
  C4_amended_cleanup noFail 4 (fun _ => true) hOne 3 "r" (some "carol") (some "c3")
    "gen" [{ type := some "ping" }] (by decide) (by decide) (by decide)

/-- C8 counterexample: the rate-limit deny path closes the transport with
code 1008 — the same code 1008 that the policy-violation closes for
authentication failures use (`invalidTokenClose`), so the rate-limit close
code is not distinguishable from the policy-violation code; only the reason
string differs. -/
theorem C8_counterexample :
    (websocket_endpoint noFail 4 (fun _ => false) hOne 3 "r" (some "carol") (some "c3")
      "gen" [{ type := some "ping" }]).closes = [(1008, "Rate limit exceeded")] ∧
    (websocket_endpoint noFail 4 (fun _ => false) hOne 3 "r" (some "carol") (some "c3")
      "gen" [{ type := some "ping" }]).cleanups = 1 ∧
    invalidTokenClose = (1008, "Invalid token") ∧
    rateLimitClose.1 = invalidTokenClose.1 :=
  ⟨by decide, by decide, by decide, by decide⟩

/-- C8 amended: while JOINED, the rate limiter is queried before each inbound
message (the loop consults `allow` before every receive); a deny on the first
check closes the transport immediately with close event
`(1008, "Rate limit exceeded")` — code 1008 being the same policy-violation
code used for authentication failures, distinguishable only by the reason
string — no inbound message is processed (the endpoint log consists of the
connect and cleanup notifications only), and normal cleanup then runs
exactly once. -/
theorem C8_amended_rate_limit (fails : Nat → Bool) (fuel : Nat) (allow : Nat → Bool)
    (h : Handler) (ws : Nat) (room : String) (u cid : Option String) (gen : String)
    (msgs : List InMsg)
    (hok : (connect fails fuel h ws room u cid gen).ok = true)
    (hdeny : allow 0 = false) :
    (websocket_endpoint fails fuel allow h ws room u cid gen msgs).closes =
      [rateLimitClose] ∧
    rateLimitClose = (1008, "Rate limit exceeded") ∧
    invalidTokenClose = (1008, "Invalid token") ∧
    (websocket_endpoint fails fuel allow h ws room u cid gen msgs).log =
      (connect fails fuel h ws room u cid gen).log ++
        (disconnect fails fuel (connect fails fuel h ws room u cid gen).state
          ws room).2 ∧
    (websocket_endpoint fails fuel allow h ws room u cid gen msgs).cleanups = 1 := by
  have hloop : endpointLoop fails fuel allow room ws 0 msgs
      (connect fails fuel h ws room u cid gen).state =
      ((connect fails fuel h ws room u cid gen).state, [], [rateLimitClose]) := by
    unfold endpointLoop
    simp [hdeny]
  refine ⟨?_, rfl, rfl, ?_, ?_⟩ <;>
    simp [websocket_endpoint, hok, hloop, disconnect]

/-- C8 amended witness: connection 3 joins `hOne`'s room `"r"`; the first
rate-limit check denies. -/
theorem C8_amended_witness :
    (websocket_endpoint noFail 4 (fun _ => false) hOne 3 "r" (some "carol") (some "c3")
      "gen" [{ type := some "ping" }]).closes = [rateLimitClose] ∧
    rateLimitClose = (1008, "Rate limit exceeded") ∧
    invalidTokenClose = (1008, "Invalid token") ∧
    (websocket_endpoint noFail 4 (fun _ => false) hOne 3 "r" (some "carol") (some "c3")
      "gen" [{ type := some "ping" }]).log =
      (connect noFail 4 hOne 3 "r" (some "carol") (some "c3") "gen").log ++
        (disconnect noFail 4 (connect noFail 4 hOne 3 "r" (some "carol") (some "c3")
          "gen").state 3 "r").2 ∧
    (websocket_endpoint noFail 4 (fun _ => false) hOne 3 "r" (some "carol") (some "c3")
      "gen" [{ type := some "ping" }]).cleanups = 1 :=
  C8_amended_rate_limit noFail 4 (fun _ => false) hOne 3 "r" (some "carol") (some "c3")
    "gen" [{ type := some "ping" }] (by decide) rfl

end WebRTC
